import Mathlib

/-!
# Verification of the geojson decode/encode engine

Shallow embedding of the repository's two source files:

* `src/geojson.rs` — the top-level `GeoJson` dispatcher (`from_json_object`,
  `TryFrom<JsonValue>`, `FromStr` via `get_object`) and `Type::from_str`;
* `src/util.rs` — the field extractors (`expect_*`, `get_bbox`,
  `get_foreign_members`, `get_properties`, `get_id`, `get_geometry`,
  `get_geometries`, `get_features`) and the recursive coordinate decoders
  (`json_to_1d_positions`, `json_to_2d_positions`, `json_to_3d_positions`).

JSON values are modelled as a tree; JSON objects as association lists with
unique keys (models `serde_json::Map`); JSON numbers as rationals, since the
engine never computes with them — it only classifies and copies them.
Rust's `&mut JsonObject` extractors are modelled by returning the result
together with the residual object.

The geometry/feature/feature-collection codecs themselves (`geometry.rs`,
`feature.rs`, `feature_collection.rs` of the crate) are not under `src/`:
those definitions are modelled from the spec, and are marked as such.
-/

set_option maxHeartbeats 1000000

/-- JSON value tree, as produced by an external JSON parser
(`serde_json::Value`).  Numbers are modelled as rationals. -/
inductive JsonValue : Type where
  | null : JsonValue
  | bool : Bool → JsonValue
  | num : Rat → JsonValue
  | str : String → JsonValue
  | arr : List JsonValue → JsonValue
  | obj : List (String × JsonValue) → JsonValue

/-- A JSON object (`serde_json::Map<String, Value>`): an association list.
All objects built by the engine have unique keys. -/
abbrev JsonObject := List (String × JsonValue)

/-- Embeds `Map::get`: first binding of the key, if any. -/
def objGet : JsonObject → String → Option JsonValue
  | [], _ => none
  | (k', v) :: rest, k => if k' = k then some v else objGet rest k

/-- Key removal part of `Map::remove`.  On unique-key objects this agrees
with removing the single binding of the key. -/
def objErase : JsonObject → String → JsonObject
  | [], _ => []
  | (k', v) :: rest, k => if k' = k then objErase rest k else (k', v) :: objErase rest k

/-- Embeds `Map::remove`: the removed value (if present) and the residual object. -/
def objRemove (o : JsonObject) (k : String) : Option JsonValue × JsonObject :=
  (objGet o k, objErase o k)

/-- Embeds `Value::as_f64`: every JSON number yields a numeric value
(`serde_json` numbers always convert), anything else yields `none`. -/
def JsonValue.as_f64 : JsonValue → Option Rat
  | .num n => some n
  | _ => none

/-- Embeds `Value::as_array`. -/
def JsonValue.as_array : JsonValue → Option (List JsonValue)
  | .arr xs => some xs
  | _ => none

/-- The crate's error type (variants as used by `src/geojson.rs` and
`src/util.rs`; `GeometryUnknownType` and `ExpectedType` are modelled from the
spec for the geometry/feature decoders that are not under `src/`). -/
inductive Error : Type where
  | GeoJsonExpectedObject
  | GeoJsonUnknownType
  | GeometryUnknownType (actual : String)
  | ExpectedType (expected : String) (actual : String)
  | MalformedJson
  | ExpectedProperty (name : String)
  | ExpectedF64Value
  | ExpectedArrayValue
  | ExpectedObjectValue
  | ExpectedStringValue
  | BboxExpectedArray
  | BboxExpectedNumericValues
  | PropertiesExpectedObjectOrNull
  | FeatureInvalidIdentifierType
  | FeatureInvalidGeometryValue
deriving DecidableEq

/-- Embeds `util::expect_string`. -/
def expect_string (value : JsonValue) : Except Error String :=
  match value with
  | .str s => .ok s
  | _ => .error .ExpectedStringValue

/-- Embeds `util::expect_f64`. -/
def expect_f64 (value : JsonValue) : Except Error Rat :=
  match value.as_f64 with
  | some v => .ok v
  | none => .error .ExpectedF64Value

/-- Embeds `util::expect_array`. -/
def expect_array (value : JsonValue) : Except Error (List JsonValue) :=
  match value.as_array with
  | some v => .ok v
  | none => .error .ExpectedArrayValue

/-- Embeds `util::expect_property`: removes and returns the named key; absence is an
error.  The residual object is returned alongside. -/
def expect_property (obj : JsonObject) (name : String) :
    Except Error JsonValue × JsonObject :=
  match objRemove obj name with
  | (some v, rest) => (.ok v, rest)
  | (none, rest) => (.error (.ExpectedProperty name), rest)

/-- Embeds `util::expect_type`: `expect_property` at key `"type"`, then
`expect_string`. -/
def expect_type (value : JsonObject) : Except Error String × JsonObject :=
  match expect_property value "type" with
  | (.ok prop, rest) => (expect_string prop, rest)
  | (.error e, rest) => (.error e, rest)

/-- Embeds `util::expect_owned_array`. -/
def expect_owned_array (value : JsonValue) : Except Error (List JsonValue) :=
  match value with
  | .arr v => .ok v
  | _ => .error .ExpectedArrayValue

/-- Embeds `util::expect_owned_object`. -/
def expect_owned_object (value : JsonValue) : Except Error JsonObject :=
  match value with
  | .obj o => .ok o
  | _ => .error .ExpectedObjectValue

/-- Embeds `util::get_coords_value`: `expect_property` at key `"coordinates"`. -/
def get_coords_value (object : JsonObject) : Except Error JsonValue × JsonObject :=
  expect_property object "coordinates"

/-- A bounding box: a flat sequence of numbers (`type Bbox = Vec<f64>`). -/
abbrev Bbox := List Rat

/-- The element loop of `util::get_bbox`:
`bbox_array.into_iter().map(|i| i.as_f64().ok_or(BboxExpectedNumericValues)).collect::<Result<_,_>>()`
— fail-fast, left to right. -/
def bboxNums : List JsonValue → Except Error (List Rat)
  | [] => .ok []
  | i :: rest =>
    match i.as_f64 with
    | some v => (bboxNums rest).map (fun ns => v :: ns)
    | none => .error .BboxExpectedNumericValues

/-- Embeds `util::get_bbox`: removes `"bbox"` if present; absent key yields `none`,
a non-array value fails `BboxExpectedArray`, a non-numeric element fails
`BboxExpectedNumericValues`. -/
def get_bbox (object : JsonObject) : Except Error (Option Bbox) × JsonObject :=
  match objRemove object "bbox" with
  | (none, rest) => (.ok none, rest)
  | (some bbox_json, rest) =>
    match bbox_json with
    | .arr a =>
      (match bboxNums a with
       | .ok bbox => .ok (some bbox)
       | .error e => .error e, rest)
    | _ => (.error .BboxExpectedArray, rest)

/-- Embeds `util::get_foreign_members`: empty residual object → `none`, otherwise
`some` of the residual. -/
def get_foreign_members (object : JsonObject) : Except Error (Option JsonObject) :=
  if object.isEmpty then .ok none else .ok (some object)

/-- Embeds `util::get_properties`: `"properties"` is mandatory; null → `none`,
object → `some`, anything else → `PropertiesExpectedObjectOrNull`. -/
def get_properties (object : JsonObject) :
    Except Error (Option JsonObject) × JsonObject :=
  match expect_property object "properties" with
  | (.ok properties, rest) =>
    (match properties with
     | .obj x => .ok (some x)
     | .null => .ok none
     | _ => .error .PropertiesExpectedObjectOrNull, rest)
  | (.error e, rest) => (.error e, rest)

namespace feature

/-- Embeds `feature::Id`: a feature identifier, numeric or string. -/
inductive Id : Type where
  | number (n : Rat)
  | string (s : String)
deriving DecidableEq

end feature

/-- Embeds `util::get_id`: removes `"id"` if present; number → numeric id,
string → string id, other type → `FeatureInvalidIdentifierType`,
absence → `none`. -/
def get_id (object : JsonObject) : Except Error (Option feature.Id) × JsonObject :=
  match objRemove object "id" with
  | (some (.num x), rest) => (.ok (some (.number x)), rest)
  | (some (.str s), rest) => (.ok (some (.string s)), rest)
  | (some _, rest) => (.error .FeatureInvalidIdentifierType, rest)
  | (none, rest) => (.ok none, rest)

/-- A position: `Vec<f64>`, the crate's default `Position` implementation. -/
abbrev PositionVec := List Rat

/-- Element loop of the `Position` codec for `Vec<f64>`: each element must be
numeric, fail-fast. -/
def positionElems : List JsonValue → Except Error (List Rat)
  | [] => .ok []
  | position :: rest =>
    match expect_f64 position with
    | .ok v => (positionElems rest).map (fun vs => v :: vs)
    | .error e => .error e

/-- Modelled from the spec: the `Position` codec's decode direction
(`impl Position for Vec<f64>`, not under `src/`): the input must be a JSON
array (`ExpectedArrayValue` otherwise) and every element numeric
(`ExpectedF64Value` otherwise); no arity validation. -/
def positionFromJsonValue (json : JsonValue) : Except Error PositionVec :=
  match expect_array json with
  | .ok coords_array => positionElems coords_array
  | .error e => .error e

/-- Element loop of `util::json_to_1d_positions`. -/
def oneDElems : List JsonValue → Except Error (List PositionVec)
  | [] => .ok []
  | item :: rest =>
    match positionFromJsonValue item with
    | .ok c => (oneDElems rest).map (fun cs => c :: cs)
    | .error e => .error e

/-- Embeds `util::json_to_1d_positions`. -/
def json_to_1d_positions (json : JsonValue) : Except Error (List PositionVec) :=
  match expect_array json with
  | .ok coords_array => oneDElems coords_array
  | .error e => .error e

/-- Element loop of `util::json_to_2d_positions`. -/
def twoDElems : List JsonValue → Except Error (List (List PositionVec))
  | [] => .ok []
  | item :: rest =>
    match json_to_1d_positions item with
    | .ok c => (twoDElems rest).map (fun cs => c :: cs)
    | .error e => .error e

/-- Embeds `util::json_to_2d_positions`. -/
def json_to_2d_positions (json : JsonValue) :
    Except Error (List (List PositionVec)) :=
  match expect_array json with
  | .ok coords_array => twoDElems coords_array
  | .error e => .error e

/-- Element loop of `util::json_to_3d_positions`. -/
def threeDElems : List JsonValue → Except Error (List (List (List PositionVec)))
  | [] => .ok []
  | item :: rest =>
    match json_to_2d_positions item with
    | .ok c => (threeDElems rest).map (fun cs => c :: cs)
    | .error e => .error e

/-- Embeds `util::json_to_3d_positions`. -/
def json_to_3d_positions (json : JsonValue) :
    Except Error (List (List (List PositionVec))) :=
  match expect_array json with
  | .ok coords_array => threeDElems coords_array
  | .error e => .error e

/-- Embeds `util::get_coords_one_pos`. -/
def get_coords_one_pos (object : JsonObject) : Except Error PositionVec × JsonObject :=
  match get_coords_value object with
  | (.ok coords_json, rest) => (positionFromJsonValue coords_json, rest)
  | (.error e, rest) => (.error e, rest)

/-- Embeds `util::get_coords_1d_pos`. -/
def get_coords_1d_pos (object : JsonObject) :
    Except Error (List PositionVec) × JsonObject :=
  match get_coords_value object with
  | (.ok coords_json, rest) => (json_to_1d_positions coords_json, rest)
  | (.error e, rest) => (.error e, rest)

/-- Embeds `util::get_coords_2d_pos`. -/
def get_coords_2d_pos (object : JsonObject) :
    Except Error (List (List PositionVec)) × JsonObject :=
  match get_coords_value object with
  | (.ok coords_json, rest) => (json_to_2d_positions coords_json, rest)
  | (.error e, rest) => (.error e, rest)

/-- Embeds `util::get_coords_3d_pos`. -/
def get_coords_3d_pos (object : JsonObject) :
    Except Error (List (List (List PositionVec))) × JsonObject :=
  match get_coords_value object with
  | (.ok coords_json, rest) => (json_to_3d_positions coords_json, rest)
  | (.error e, rest) => (.error e, rest)

/-! ## The object model

Modelled from the spec (the crate's `geometry.rs`, `feature.rs` and
`feature_collection.rs` are not under `src/`): a tagged variant over the seven
geometry kinds, each carrying its optional bbox and optional foreign members;
a feature with optional geometry/id/properties; an ordered feature collection.
-/

/-- Modelled from the spec: `Geometry` (= `GeometryBase<Vec<f64>>`), a tagged
variant over the seven geometry kinds, with optional bbox and optional foreign
members attached to every variant. -/
inductive Geometry : Type where
  | point (bbox : Option Bbox) (foreign_members : Option JsonObject)
      (coordinates : PositionVec)
  | multiPoint (bbox : Option Bbox) (foreign_members : Option JsonObject)
      (coordinates : List PositionVec)
  | lineString (bbox : Option Bbox) (foreign_members : Option JsonObject)
      (coordinates : List PositionVec)
  | multiLineString (bbox : Option Bbox) (foreign_members : Option JsonObject)
      (coordinates : List (List PositionVec))
  | polygon (bbox : Option Bbox) (foreign_members : Option JsonObject)
      (coordinates : List (List PositionVec))
  | multiPolygon (bbox : Option Bbox) (foreign_members : Option JsonObject)
      (coordinates : List (List (List PositionVec)))
  | geometryCollection (bbox : Option Bbox) (foreign_members : Option JsonObject)
      (geometries : List Geometry)

/-- Modelled from the spec: `Feature` (= `FeatureBase<Vec<f64>>`). -/
structure Feature : Type where
  bbox : Option Bbox
  geometry : Option Geometry
  id : Option feature.Id
  properties : Option JsonObject
  foreign_members : Option JsonObject

/-- Modelled from the spec: `FeatureCollection`. -/
structure FeatureCollection : Type where
  bbox : Option Bbox
  features : List Feature
  foreign_members : Option JsonObject

/-- Embeds `GeoJsonBase<Vec<f64>>` = `GeoJson` (`src/geojson.rs`, lines 25-32). -/
inductive GeoJson : Type where
  | geometry (g : Geometry)
  | feature (f : Feature)
  | featureCollection (fc : FeatureCollection)

/-- Embeds `Type` (`src/geojson.rs`, lines 148-159): the nine recognized tags. -/
inductive TypeTag : Type where
  | Point
  | MultiPoint
  | LineString
  | MultiLineString
  | Polygon
  | MultiPolygon
  | GeometryCollection
  | Feature
  | FeatureCollection
deriving DecidableEq

/-- Embeds `Type::from_str` (`src/geojson.rs`, lines 161-176). -/
def TypeTag.from_str (s : String) : Option TypeTag :=
  match s with
  | "Point" => some .Point
  | "MultiPoint" => some .MultiPoint
  | "LineString" => some .LineString
  | "MultiLineString" => some .MultiLineString
  | "Polygon" => some .Polygon
  | "MultiPolygon" => some .MultiPolygon
  | "GeometryCollection" => some .GeometryCollection
  | "Feature" => some .Feature
  | "FeatureCollection" => some .FeatureCollection
  | _ => none

/-! ## Size lemmas for termination

The recursive decoders recurse into values extracted out of the object, so
they are defined by well-founded recursion on `sizeOf`; these lemmas provide
the decrease. -/

theorem objGet_sizeOf {o : JsonObject} {k : String} {v : JsonValue}
    (h : objGet o k = some v) : sizeOf v < sizeOf o := by
  induction o with
  | nil => simp [objGet] at h
  | cons hd tl ih =>
    obtain ⟨k', v'⟩ := hd
    by_cases hk : k' = k
    · simp [objGet, hk] at h
      subst h
      simp
      omega
    · simp [objGet, hk] at h
      have := ih h
      simp
      omega

theorem objErase_sizeOf_le (o : JsonObject) (k : String) :
    sizeOf (objErase o k) ≤ sizeOf o := by
  induction o with
  | nil => simp [objErase]
  | cons hd tl ih =>
    obtain ⟨k', v'⟩ := hd
    by_cases hk : k' = k
    · simp [objErase, hk]
      omega
    · simp [objErase, hk]
      omega

theorem objErase_sizeOf_lt {o : JsonObject} {k : String} {v : JsonValue}
    (h : objGet o k = some v) : sizeOf (objErase o k) < sizeOf o := by
  induction o with
  | nil => simp [objGet] at h
  | cons hd tl ih =>
    obtain ⟨k', v'⟩ := hd
    by_cases hk : k' = k
    · have := objErase_sizeOf_le tl k
      simp [objErase, hk]
      omega
    · simp [objGet, hk] at h
      have := ih h
      simp [objErase, hk]
      omega

theorem expect_property_ok_sizeOf {o : JsonObject} {k : String} {v : JsonValue}
    {rest : JsonObject} (h : expect_property o k = (.ok v, rest)) :
    sizeOf v < sizeOf o ∧ sizeOf rest < sizeOf o := by
  unfold expect_property objRemove at h
  rcases hg : objGet o k with _ | v'
  · simp [hg] at h
  · simp [hg] at h
    obtain ⟨h1, h2⟩ := h
    subst h1
    subst h2
    exact ⟨objGet_sizeOf hg, objErase_sizeOf_lt hg⟩

theorem expect_type_ok_sizeOf {o : JsonObject} {t : String} {rest : JsonObject}
    (h : expect_type o = (.ok t, rest)) : sizeOf rest < sizeOf o := by
  unfold expect_type at h
  rcases hp : expect_property o "type" with ⟨r, rest'⟩
  rw [hp] at h
  cases r with
  | ok prop =>
    simp at h
    obtain ⟨-, h2⟩ := h
    subst h2
    exact (expect_property_ok_sizeOf hp).2
  | error e => simp at h

/-! ## Geometry / Feature / FeatureCollection decoders

Modelled from the spec (§4.4 variant dispatcher): these decoders are the
crate's `Geometry/Feature/FeatureCollection::from_json_object`, which are not
under `src/`.  Each consumes the `"type"` tag via `util::expect_type`, builds
the variant payload with the `src/util.rs` extractors, then attaches bbox and
foreign members. -/

/-- Modelled from the spec: attach the optional bbox and the foreign members
(the residual keys) to a fully-built geometry variant. -/
def finishGeometry (mk : Option Bbox → Option JsonObject → Geometry)
    (object : JsonObject) : Except Error Geometry :=
  match get_bbox object with
  | (.error e, _) => .error e
  | (.ok bbox, rest) =>
    match get_foreign_members rest with
    | .ok fm => .ok (mk bbox fm)
    | .error e => .error e

/-- Modelled from the spec: the coordinate-carrying geometry variants, keyed
by the type tag, each using the depth-matched coordinate decoder from
`src/util.rs`; an unrecognized geometry tag is an unknown-type error. -/
def decodeCoordValue (t : String) (object : JsonObject) :
    Except Error ((Option Bbox → Option JsonObject → Geometry) × JsonObject) :=
  if t = "Point" then
    match get_coords_one_pos object with
    | (.ok c, rest) => .ok (fun b f => .point b f c, rest)
    | (.error e, _) => .error e
  else if t = "MultiPoint" then
    match get_coords_1d_pos object with
    | (.ok c, rest) => .ok (fun b f => .multiPoint b f c, rest)
    | (.error e, _) => .error e
  else if t = "LineString" then
    match get_coords_1d_pos object with
    | (.ok c, rest) => .ok (fun b f => .lineString b f c, rest)
    | (.error e, _) => .error e
  else if t = "MultiLineString" then
    match get_coords_2d_pos object with
    | (.ok c, rest) => .ok (fun b f => .multiLineString b f c, rest)
    | (.error e, _) => .error e
  else if t = "Polygon" then
    match get_coords_2d_pos object with
    | (.ok c, rest) => .ok (fun b f => .polygon b f c, rest)
    | (.error e, _) => .error e
  else if t = "MultiPolygon" then
    match get_coords_3d_pos object with
    | (.ok c, rest) => .ok (fun b f => .multiPolygon b f c, rest)
    | (.error e, _) => .error e
  else .error (.GeometryUnknownType t)

mutual

/-- Modelled from the spec: `Geometry::from_json_object` — read the type tag,
build the matching variant (coordinate decoders at the matching depth, or
`util::get_geometries` for `GeometryCollection`), then attach bbox and
foreign members. -/
def decodeGeometry (object : JsonObject) : Except Error Geometry :=
  match h : expect_type object with
  | (.error e, _) => .error e
  | (.ok t, o1) =>
    if t = "GeometryCollection" then
      match get_geometries o1 with
      | (.error e, _) => .error e
      | (.ok gs, o2) => finishGeometry (fun b f => .geometryCollection b f gs) o2
    else
      match decodeCoordValue t o1 with
      | .error e => .error e
      | .ok (mk, o2) => finishGeometry mk o2
termination_by sizeOf object
decreasing_by
  have := expect_type_ok_sizeOf h
  omega

/-- Embeds `util::get_geometries` (`src/util.rs`, lines 138-148): removes
`"geometries"`, requires an array, and decodes each element (which must be an
object) as a geometry, fail-fast. -/
def get_geometries (object : JsonObject) :
    Except Error (List Geometry) × JsonObject :=
  match h : expect_property object "geometries" with
  | (.error e, rest) => (.error e, rest)
  | (.ok geometries_json, rest) =>
    match h2 : geometries_json with
    | .arr geometries_array => (decodeGeometryList geometries_array, rest)
    | _ => (.error .ExpectedArrayValue, rest)
termination_by sizeOf object
decreasing_by
  have h3 := expect_property_ok_sizeOf h
  subst h2
  simp at h3
  omega

/-- The element loop of `util::get_geometries`. -/
def decodeGeometryList : List JsonValue → Except Error (List Geometry)
  | [] => .ok []
  | .obj o :: rest =>
    match decodeGeometry o with
    | .ok geometry => (decodeGeometryList rest).map (fun gs => geometry :: gs)
    | .error e => .error e
  | _ :: _ => .error .ExpectedObjectValue
termination_by l => sizeOf l
decreasing_by
  all_goals simp
  all_goals omega

end

/-- Embeds `util::get_geometry` (`src/util.rs`, lines 161-173): removes
`"geometry"` (absence is an error); null → `none`, object → decode as a
geometry, anything else → `FeatureInvalidGeometryValue`. -/
def get_geometry (object : JsonObject) :
    Except Error (Option Geometry) × JsonObject :=
  match expect_property object "geometry" with
  | (.ok geometry, rest) =>
    (match geometry with
     | .obj x =>
       match decodeGeometry x with
       | .ok geometry_object => .ok (some geometry_object)
       | .error e => .error e
     | .null => .ok none
     | _ => .error .FeatureInvalidGeometryValue, rest)
  | (.error e, rest) => (.error e, rest)

/-- Modelled from the spec: `Feature::from_json_object` — consume the
`"type"` tag (which must be `"Feature"`), then build the feature from the
`src/util.rs` extractors: geometry, properties, id, bbox, foreign members. -/
def decodeFeature (object : JsonObject) : Except Error Feature :=
  match expect_type object with
  | (.error e, _) => .error e
  | (.ok t, o1) =>
    if t = "Feature" then
      match get_geometry o1 with
      | (.error e, _) => .error e
      | (.ok geometry, o2) =>
        match get_properties o2 with
        | (.error e, _) => .error e
        | (.ok properties, o3) =>
          match get_id o3 with
          | (.error e, _) => .error e
          | (.ok id, o4) =>
            match get_bbox o4 with
            | (.error e, _) => .error e
            | (.ok bbox, o5) =>
              match get_foreign_members o5 with
              | .ok foreign_members =>
                .ok ⟨bbox, geometry, id, properties, foreign_members⟩
              | .error e => .error e
    else .error (.ExpectedType "Feature" t)

/-- The element loop of `util::get_features`: each element must be an object
(`expect_owned_object`) and decode as a full feature, fail-fast. -/
def decodeFeatureList : List JsonValue → Except Error (List Feature)
  | [] => .ok []
  | .obj o :: rest =>
    match decodeFeature o with
    | .ok f => (decodeFeatureList rest).map (fun fs => f :: fs)
    | .error e => .error e
  | _ :: _ => .error .ExpectedObjectValue

/-- Embeds `util::get_features` (`src/util.rs`, lines 176-186): removes
`"features"`, requires an array, decodes each element as a feature. -/
def get_features (object : JsonObject) :
    Except Error (List Feature) × JsonObject :=
  match expect_property object "features" with
  | (.ok prop, rest) =>
    (match prop with
     | .arr features_json => decodeFeatureList features_json
     | _ => .error .ExpectedArrayValue, rest)
  | (.error e, rest) => (.error e, rest)

/-- Modelled from the spec: `FeatureCollection::from_json_object` — consume
the `"type"` tag (which must be `"FeatureCollection"`), then `get_features`,
bbox, foreign members. -/
def decodeFeatureCollection (object : JsonObject) :
    Except Error FeatureCollection :=
  match expect_type object with
  | (.error e, _) => .error e
  | (.ok t, o1) =>
    if t = "FeatureCollection" then
      match get_features o1 with
      | (.error e, _) => .error e
      | (.ok features, o2) =>
        match get_bbox o2 with
        | (.error e, _) => .error e
        | (.ok bbox, o3) =>
          match get_foreign_members o3 with
          | .ok foreign_members => .ok ⟨bbox, features, foreign_members⟩
          | .error e => .error e
    else .error (.ExpectedType "FeatureCollection" t)

/-- Embeds `GeoJsonBase::from_json_object` (`src/geojson.rs`, lines 62-77), which is
also character-for-character the body of `TryFrom<JsonObject> for GeoJson`
(lines 117-134): peek (without removing) at `"type"`; absence or a non-string
value is `ExpectedProperty("type")`; an unrecognized string is
`GeoJsonUnknownType`; otherwise route to the matching decoder. -/
def from_json_object (object : JsonObject) : Except Error GeoJson :=
  match objGet object "type" with
  | some (.str t) =>
    match TypeTag.from_str t with
    | none => .error .GeoJsonUnknownType
    | some ty =>
      match ty with
      | .Feature => (decodeFeature object).map GeoJson.feature
      | .FeatureCollection =>
        (decodeFeatureCollection object).map GeoJson.featureCollection
      | _ => (decodeGeometry object).map GeoJson.geometry
  | _ => .error (.ExpectedProperty "type")

/-- Embeds `TryFrom<JsonValue> for GeoJson` (`src/geojson.rs`, lines 136-146), also
`GeoJson::from_json_value`: an object is decoded, anything else is
`GeoJsonExpectedObject`. -/
def from_json_value (value : JsonValue) : Except Error GeoJson :=
  match value with
  | .obj o => from_json_object o
  | _ => .error .GeoJsonExpectedObject

/-- Embeds `json_value_into_json_object` (`src/geojson.rs`, lines 217-223). -/
def json_value_into_json_object (json_value : JsonValue) : Option JsonObject :=
  match json_value with
  | .obj geo => some geo
  | _ => none

/-- Embeds `get_object` (`src/geojson.rs`, lines 210-215).  The raw text is fed to
the external `serde_json` parser; the parser's outcome (`none` = the text
failed to parse) is the input here:
`from_str(s).ok().and_then(json_value_into_json_object).ok_or(MalformedJson)`. -/
def get_object (parsed : Option JsonValue) : Except Error JsonObject :=
  match parsed.bind json_value_into_json_object with
  | some o => .ok o
  | none => .error .MalformedJson

/-- Embeds `FromStr for GeoJsonBase` (`src/geojson.rs`, lines 200-208), over the
external parser's outcome for the input string: `get_object` then
`from_json_object`. -/
def from_str (parsed : Option JsonValue) : Except Error GeoJson :=
  match get_object parsed with
  | .ok object => from_json_object object
  | .error e => .error e

/-! ## Encoders

Modelled from the spec (§4.4, encode direction): given a model instance, emit
the optional `"bbox"`, the `"type"` tag, the variant-appropriate
coordinate/sub-object key, and finally splice in any foreign members. -/

/-- Modelled from the spec: the `"bbox"` key, emitted only when present. -/
def encBbox : Option Bbox → JsonObject
  | none => []
  | some b => [("bbox", .arr (b.map JsonValue.num))]

/-- Modelled from the spec: foreign members spliced in as additional keys. -/
def encFM : Option JsonObject → JsonObject
  | none => []
  | some m => m

/-- Modelled from the spec: the `"id"` key, emitted only when present. -/
def encId : Option feature.Id → JsonObject
  | none => []
  | some (.number n) => [("id", .num n)]
  | some (.string s) => [("id", .str s)]

/-- Modelled from the spec: the `Position` codec's encode direction — a JSON
array of the numeric components in order. -/
def encodePosition (p : PositionVec) : JsonValue := .arr (p.map JsonValue.num)

/-- Modelled from the spec: depth-1 coordinate encoder. -/
def encode1d (ps : List PositionVec) : JsonValue := .arr (ps.map encodePosition)

/-- Modelled from the spec: depth-2 coordinate encoder. -/
def encode2d (ls : List (List PositionVec)) : JsonValue := .arr (ls.map encode1d)

/-- Modelled from the spec: depth-3 coordinate encoder. -/
def encode3d (pp : List (List (List PositionVec))) : JsonValue :=
  .arr (pp.map encode2d)

mutual

/-- Modelled from the spec: `From<&Geometry> for JsonObject` — optional bbox,
the `"type"` tag, the `"coordinates"` (or `"geometries"`) key, then foreign
members. -/
def encodeGeometry : Geometry → JsonObject
  | .point b f p =>
    encBbox b ++ [("type", .str "Point"), ("coordinates", encodePosition p)] ++ encFM f
  | .multiPoint b f ps =>
    encBbox b ++ [("type", .str "MultiPoint"), ("coordinates", encode1d ps)] ++ encFM f
  | .lineString b f ps =>
    encBbox b ++ [("type", .str "LineString"), ("coordinates", encode1d ps)] ++ encFM f
  | .multiLineString b f ls =>
    encBbox b ++ [("type", .str "MultiLineString"), ("coordinates", encode2d ls)] ++ encFM f
  | .polygon b f ls =>
    encBbox b ++ [("type", .str "Polygon"), ("coordinates", encode2d ls)] ++ encFM f
  | .multiPolygon b f pp =>
    encBbox b ++ [("type", .str "MultiPolygon"), ("coordinates", encode3d pp)] ++ encFM f
  | .geometryCollection b f gs =>
    encBbox b ++ [("type", .str "GeometryCollection"),
      ("geometries", .arr (encodeGeometryList gs))] ++ encFM f

/-- Modelled from the spec: each member of a geometry collection encoded as a
JSON object. -/
def encodeGeometryList : List Geometry → List JsonValue
  | [] => []
  | g :: gs => .obj (encodeGeometry g) :: encodeGeometryList gs

end

/-- Modelled from the spec: `From<&Feature> for JsonObject` — `"geometry"`
and `"properties"` are always emitted (null when absent, since they are
mandatory keys on decode); `"bbox"` and `"id"` only when present. -/
def encodeFeature (f : Feature) : JsonObject :=
  encBbox f.bbox ++
    [("type", .str "Feature"),
     ("geometry", match f.geometry with
       | some g => .obj (encodeGeometry g)
       | none => .null),
     ("properties", match f.properties with
       | some m => .obj m
       | none => .null)] ++
    encId f.id ++ encFM f.foreign_members

/-- Modelled from the spec: the members of a feature collection. -/
def encodeFeatureList : List Feature → List JsonValue
  | [] => []
  | f :: fs => .obj (encodeFeature f) :: encodeFeatureList fs

/-- Modelled from the spec: `From<&FeatureCollection> for JsonObject`. -/
def encodeFeatureCollection (fc : FeatureCollection) : JsonObject :=
  encBbox fc.bbox ++
    [("type", .str "FeatureCollection"),
     ("features", .arr (encodeFeatureList fc.features))] ++
    encFM fc.foreign_members

/-- Embeds `From<&GeoJson> for JsonObject` (`src/geojson.rs`, lines 34-42):
delegates to the variant's encoder. -/
def encodeGeoJson : GeoJson → JsonObject
  | .geometry g => encodeGeometry g
  | .feature f => encodeFeature f
  | .featureCollection fc => encodeFeatureCollection fc

/-! ## No-foreign-members predicates (used by the round-trip claim) -/

mutual

/-- A geometry (recursively) carries no foreign members. -/
def Geometry.noFM : Geometry → Bool
  | .point _ f _ => f.isNone
  | .multiPoint _ f _ => f.isNone
  | .lineString _ f _ => f.isNone
  | .multiLineString _ f _ => f.isNone
  | .polygon _ f _ => f.isNone
  | .multiPolygon _ f _ => f.isNone
  | .geometryCollection _ f gs => f.isNone && geometryListNoFM gs

/-- All geometries in the list carry no foreign members. -/
def geometryListNoFM : List Geometry → Bool
  | [] => true
  | g :: gs => Geometry.noFM g && geometryListNoFM gs

end

/-- A feature (recursively) carries no foreign members. -/
def Feature.noFM (f : Feature) : Bool :=
  f.foreign_members.isNone &&
    (match f.geometry with
     | some g => g.noFM
     | none => true)

/-- All features in the list carry no foreign members. -/
def featureListNoFM : List Feature → Bool
  | [] => true
  | f :: fs => f.noFM && featureListNoFM fs

/-- A feature collection (recursively) carries no foreign members. -/
def FeatureCollection.noFM (fc : FeatureCollection) : Bool :=
  fc.foreign_members.isNone && featureListNoFM fc.features

/-- A GeoJson value (recursively) carries no foreign members. -/
def GeoJson.noFM : GeoJson → Bool
  | .geometry g => g.noFM
  | .feature f => f.noFM
  | .featureCollection fc => fc.noFM

/-! ## Claim-side classifiers and specification functions -/

/-- Is this JSON value an array? -/
def JsonValue.isArr : JsonValue → Bool
  | .arr _ => true
  | _ => false

/-- Is this JSON value a string? -/
def JsonValue.isStr : JsonValue → Bool
  | .str _ => true
  | _ => false

/-- Is this JSON value an object or null (the shapes `properties` and
`geometry` accept)? -/
def JsonValue.isObjOrNull : JsonValue → Bool
  | .obj _ => true
  | .null => true
  | _ => false

/-- Is this JSON value a number or a string (the shapes `id` accepts)? -/
def JsonValue.isNumOrStr : JsonValue → Bool
  | .num _ => true
  | .str _ => true
  | _ => false

/-- Is this JSON value an array all of whose elements are numeric (the shape
`bbox` accepts)? -/
def JsonValue.isNumArray : JsonValue → Bool
  | .arr xs => xs.all (fun x => x.as_f64.isSome)
  | _ => false

/-- Specification-side combinator for the claim "apply the element decoder to
each element in order, returning the first error encountered left-to-right,
with no partial result": collect the per-element outcomes, stopping at the
first error. -/
def collectFirstError {α : Type} : List (Except Error α) → Except Error (List α)
  | [] => .ok []
  | .error e :: _ => .error e
  | .ok a :: rest =>
    match collectFirstError rest with
    | .ok as => .ok (a :: as)
    | .error e => .error e

/-- The two errors the spec reserves for the top level. -/
def Error.isTopLevel : Error → Bool
  | .MalformedJson => true
  | .GeoJsonExpectedObject => true
  | _ => false

/-! ## Helper lemmas -/

theorem objGet_objErase (o : JsonObject) (k : String) :
    objGet (objErase o k) k = none := by
  induction o with
  | nil => simp [objErase, objGet]
  | cons hd tl ih =>
    obtain ⟨k', v'⟩ := hd
    by_cases hk : k' = k
    · simpa [objErase, hk] using ih
    · simpa [objErase, objGet, hk] using ih

theorem get_properties_snd (o : JsonObject) :
    (get_properties o).2 = objErase o "properties" := by
  unfold get_properties expect_property objRemove
  rcases hg : objGet o "properties" with _ | v
  · simp
  · cases v <;> simp

theorem get_bbox_snd (o : JsonObject) :
    (get_bbox o).2 = objErase o "bbox" := by
  unfold get_bbox objRemove
  rcases hg : objGet o "bbox" with _ | v
  · simp
  · cases v <;> simp

theorem bboxNums_ok_of_all {xs : List JsonValue}
    (h : xs.all (fun x => x.as_f64.isSome) = true) :
    ∃ ns : List Rat, bboxNums xs = .ok ns := by
  induction xs with
  | nil => exact ⟨[], rfl⟩
  | cons x rest ih =>
    simp only [List.all_cons, Bool.and_eq_true] at h
    rcases hx : x.as_f64 with _ | v
    · rw [hx] at h
      simp at h
    · obtain ⟨ns, hns⟩ := ih h.2
      exact ⟨v :: ns, by simp [bboxNums, hx, hns, Except.map]⟩

theorem bboxNums_error_of_not_all {xs : List JsonValue}
    (h : xs.all (fun x => x.as_f64.isSome) = false) :
    bboxNums xs = .error .BboxExpectedNumericValues := by
  induction xs with
  | nil => simp at h
  | cons x rest ih =>
    simp only [List.all_cons, Bool.and_eq_false_iff] at h
    rcases hx : x.as_f64 with _ | v
    · simp [bboxNums, hx]
    · rcases h with h | h
      · rw [hx] at h
        simp at h
      · simp [bboxNums, hx, ih h, Except.map]

/-! ## Claims -/

/-- C6: for every JSON object, after all recognized keys have been extracted,
the foreign-members field is `none` when no keys remain (never an empty
mapping), and `some` of exactly the residual mapping otherwise. -/
theorem C6_foreign_members (o : JsonObject) :
    get_foreign_members o =
      .ok (match o with
        | [] => none
        | _ :: _ => some o) := by
  cases o <;> simp [get_foreign_members]

/-- C8: the bbox extractor yields `none` when `"bbox"` is absent; a present
non-array value fails `BboxExpectedArray`; an array with a non-numeric
element fails `BboxExpectedNumericValues`; any array of numbers succeeds,
regardless of length or parity. -/
theorem C8_bbox :
    (∀ o : JsonObject, objGet o "bbox" = none → (get_bbox o).1 = .ok none)
    ∧ (∀ (o : JsonObject) (v : JsonValue), objGet o "bbox" = some v →
        v.isArr = false → (get_bbox o).1 = .error .BboxExpectedArray)
    ∧ (∀ (o : JsonObject) (xs : List JsonValue), objGet o "bbox" = some (.arr xs) →
        (xs.all (fun x => x.as_f64.isSome) = true →
          ∃ ns : Bbox, (get_bbox o).1 = .ok (some ns))
        ∧ (xs.all (fun x => x.as_f64.isSome) = false →
          (get_bbox o).1 = .error .BboxExpectedNumericValues)) := by
  refine ⟨?_, ?_, ?_⟩
  · intro o h
    simp [get_bbox, objRemove, h]
  · intro o v h hv
    cases v <;> simp_all [get_bbox, objRemove, JsonValue.isArr]
  · intro o xs h
    constructor
    · intro hall
      obtain ⟨ns, hns⟩ := bboxNums_ok_of_all hall
      exact ⟨ns, by simp [get_bbox, objRemove, h, hns]⟩
    · intro hnot
      simp [get_bbox, objRemove, h, bboxNums_error_of_not_all hnot]

/-- C8 witness: bbox absent, bbox a string, bbox an array with a null
element, bbox an odd-length numeric array. -/
theorem C8_bbox_witness :
    (get_bbox []).1 = .ok none
    ∧ (get_bbox [("bbox", JsonValue.str "x")]).1 = .error .BboxExpectedArray
    ∧ (get_bbox [("bbox", JsonValue.arr [JsonValue.null])]).1 =
        .error .BboxExpectedNumericValues
    ∧ ∃ ns : Bbox,
        (get_bbox [("bbox", JsonValue.arr [JsonValue.num 1, JsonValue.num 2,
          JsonValue.num 3])]).1 = .ok (some ns) :=
  ⟨C8_bbox.1 [] rfl, C8_bbox.2.1 _ _ rfl rfl,
   (C8_bbox.2.2 [("bbox", JsonValue.arr [JsonValue.null])] [JsonValue.null] rfl).2 rfl,
   (C8_bbox.2.2 [("bbox", JsonValue.arr [JsonValue.num 1, JsonValue.num 2,
     JsonValue.num 3])] [JsonValue.num 1, JsonValue.num 2, JsonValue.num 3] rfl).1 rfl⟩

/-- C9: the id extractor yields `none` when `"id"` is absent; a number yields
the numeric-id variant, a string the string-id variant, and any other JSON
type fails `FeatureInvalidIdentifierType`. -/
theorem C9_id :
    (∀ o : JsonObject, objGet o "id" = none → (get_id o).1 = .ok none)
    ∧ (∀ (o : JsonObject) (n : Rat), objGet o "id" = some (.num n) →
        (get_id o).1 = .ok (some (.number n)))
    ∧ (∀ (o : JsonObject) (s : String), objGet o "id" = some (.str s) →
        (get_id o).1 = .ok (some (.string s)))
    ∧ (∀ (o : JsonObject) (v : JsonValue), objGet o "id" = some v →
        v.isNumOrStr = false → (get_id o).1 = .error .FeatureInvalidIdentifierType) := by
  refine ⟨?_, ?_, ?_, ?_⟩
  · intro o h
    simp [get_id, objRemove, h]
  · intro o n h
    simp [get_id, objRemove, h]
  · intro o s h
    simp [get_id, objRemove, h]
  · intro o v h hv
    cases v <;> simp_all [get_id, objRemove, JsonValue.isNumOrStr]

/-- C9 witness: id absent, numeric id, string id, boolean id. -/
theorem C9_id_witness :
    (get_id []).1 = .ok none
    ∧ (get_id [("id", JsonValue.num 7)]).1 = .ok (some (.number 7))
    ∧ (get_id [("id", JsonValue.str "a")]).1 = .ok (some (.string "a"))
    ∧ (get_id [("id", JsonValue.bool true)]).1 =
        .error .FeatureInvalidIdentifierType :=
  ⟨C9_id.1 [] rfl, C9_id.2.1 _ _ rfl, C9_id.2.2.1 _ _ rfl, C9_id.2.2.2 _ _ rfl rfl⟩

/-- C4: the properties extractor fails with a missing-property error when
`"properties"` is absent; null yields `none`, an object yields `some` of that
mapping, any other type fails `PropertiesExpectedObjectOrNull`; and the
Feature `{"type":"Feature","geometry":null}` (no properties key) fails to
decode with the missing-property error. -/
theorem C4_properties :
    (∀ o : JsonObject, objGet o "properties" = none →
        (get_properties o).1 = .error (.ExpectedProperty "properties"))
    ∧ (∀ o : JsonObject, objGet o "properties" = some .null →
        (get_properties o).1 = .ok none)
    ∧ (∀ (o : JsonObject) (m : JsonObject), objGet o "properties" = some (.obj m) →
        (get_properties o).1 = .ok (some m))
    ∧ (∀ (o : JsonObject) (v : JsonValue), objGet o "properties" = some v →
        v.isObjOrNull = false →
        (get_properties o).1 = .error .PropertiesExpectedObjectOrNull)
    ∧ from_json_object [("type", .str "Feature"), ("geometry", .null)] =
        .error (.ExpectedProperty "properties") := by
  refine ⟨?_, ?_, ?_, ?_, rfl⟩
  · intro o h
    simp [get_properties, expect_property, objRemove, h]
  · intro o h
    simp [get_properties, expect_property, objRemove, h]
  · intro o m h
    simp [get_properties, expect_property, objRemove, h]
  · intro o v h hv
    cases v <;> simp_all [get_properties, expect_property, objRemove,
      JsonValue.isObjOrNull]

/-- C4 witness: properties absent, null, an object, a number. -/
theorem C4_properties_witness :
    (get_properties []).1 = .error (.ExpectedProperty "properties")
    ∧ (get_properties [("properties", JsonValue.null)]).1 = .ok none
    ∧ (get_properties [("properties", JsonValue.obj [("a", JsonValue.num 1)])]).1 =
        .ok (some [("a", JsonValue.num 1)])
    ∧ (get_properties [("properties", JsonValue.num 3)]).1 =
        .error .PropertiesExpectedObjectOrNull :=
  ⟨C4_properties.1 [] rfl, C4_properties.2.1 _ rfl, C4_properties.2.2.1 _ _ rfl,
   C4_properties.2.2.2.1 _ _ rfl rfl⟩

/-- C7: the geometry extractor fails when `"geometry"` is absent; null yields
`none` (success), an object is decoded through the geometry decoder, any other
type fails `FeatureInvalidGeometryValue`; and
`{"type":"Feature","properties":null,"geometry":null}` decodes to a feature
with no properties and no geometry. -/
theorem C7_geometry :
    (∀ o : JsonObject, objGet o "geometry" = none →
        (get_geometry o).1 = .error (.ExpectedProperty "geometry"))
    ∧ (∀ o : JsonObject, objGet o "geometry" = some .null →
        (get_geometry o).1 = .ok none)
    ∧ (∀ (o : JsonObject) (m : JsonObject), objGet o "geometry" = some (.obj m) →
        (get_geometry o).1 = (decodeGeometry m).map some)
    ∧ (∀ (o : JsonObject) (v : JsonValue), objGet o "geometry" = some v →
        v.isObjOrNull = false →
        (get_geometry o).1 = .error .FeatureInvalidGeometryValue)
    ∧ from_json_object [("type", .str "Feature"), ("properties", .null),
        ("geometry", .null)] = .ok (.feature ⟨none, none, none, none, none⟩) := by
  refine ⟨?_, ?_, ?_, ?_, rfl⟩
  · intro o h
    simp [get_geometry, expect_property, objRemove, h]
  · intro o h
    simp [get_geometry, expect_property, objRemove, h]
  · intro o m h
    simp only [get_geometry, expect_property, objRemove, h]
    cases hg : decodeGeometry m <;> simp [Except.map]
  · intro o v h hv
    cases v <;> simp_all [get_geometry, expect_property, objRemove,
      JsonValue.isObjOrNull]

/-- C7 witness: geometry absent, null, a Point object, a number. -/
theorem C7_geometry_witness :
    (get_geometry []).1 = .error (.ExpectedProperty "geometry")
    ∧ (get_geometry [("geometry", JsonValue.null)]).1 = .ok none
    ∧ (get_geometry [("geometry", JsonValue.obj [("type", JsonValue.str "Point"),
        ("coordinates", JsonValue.arr [JsonValue.num 1, JsonValue.num 2])])]).1 =
        (decodeGeometry [("type", JsonValue.str "Point"),
          ("coordinates", JsonValue.arr [JsonValue.num 1, JsonValue.num 2])]).map some
    ∧ (get_geometry [("geometry", JsonValue.num 9)]).1 =
        .error .FeatureInvalidGeometryValue :=
  ⟨C7_geometry.1 [] rfl, C7_geometry.2.1 _ rfl, C7_geometry.2.2.1 _ _ rfl,
   C7_geometry.2.2.2.1 _ _ rfl rfl⟩

/-- C10: field extraction is not atomic on error — a present `"properties"`
value that is neither object nor null, or a present `"bbox"` value that is
not an array of numbers, makes the extractor fail, yet the offending key has
already been removed from the residual object. -/
theorem C10_consuming_extraction :
    (∀ (o : JsonObject) (v : JsonValue), objGet o "properties" = some v →
        v.isObjOrNull = false →
        (∃ e, (get_properties o).1 = .error e) ∧
          objGet (get_properties o).2 "properties" = none)
    ∧ (∀ (o : JsonObject) (v : JsonValue), objGet o "bbox" = some v →
        v.isNumArray = false →
        (∃ e, (get_bbox o).1 = .error e) ∧
          objGet (get_bbox o).2 "bbox" = none) := by
  constructor
  · intro o v h hv
    refine ⟨⟨.PropertiesExpectedObjectOrNull, ?_⟩, ?_⟩
    · cases v <;> simp_all [get_properties, expect_property, objRemove,
        JsonValue.isObjOrNull]
    · rw [get_properties_snd]
      exact objGet_objErase o "properties"
  · intro o v h hv
    constructor
    · rcases v with _ | b | n | s | xs | m
      · exact ⟨.BboxExpectedArray, by simp [get_bbox, objRemove, h]⟩
      · exact ⟨.BboxExpectedArray, by simp [get_bbox, objRemove, h]⟩
      · exact ⟨.BboxExpectedArray, by simp [get_bbox, objRemove, h]⟩
      · exact ⟨.BboxExpectedArray, by simp [get_bbox, objRemove, h]⟩
      · refine ⟨.BboxExpectedNumericValues, ?_⟩
        simp only [JsonValue.isNumArray] at hv
        simp [get_bbox, objRemove, h, bboxNums_error_of_not_all hv]
      · exact ⟨.BboxExpectedArray, by simp [get_bbox, objRemove, h]⟩
    · rw [get_bbox_snd]
      exact objGet_objErase o "bbox"

/-- C10 witness: a numeric `properties` value and a non-array `bbox` value
are both rejected and both consumed. -/
theorem C10_consuming_extraction_witness :
    ((∃ e, (get_properties [("properties", JsonValue.num 1),
        ("x", JsonValue.null)]).1 = .error e) ∧
      objGet (get_properties [("properties", JsonValue.num 1),
        ("x", JsonValue.null)]).2 "properties" = none)
    ∧ ((∃ e, (get_bbox [("bbox", JsonValue.str "b")]).1 = .error e) ∧
      objGet (get_bbox [("bbox", JsonValue.str "b")]).2 "bbox" = none) :=
  ⟨C10_consuming_extraction.1 _ _ rfl rfl,
   C10_consuming_extraction.2 _ _ rfl rfl⟩

/-- C3: the top-level dispatcher fails `ExpectedProperty("type")` when the
`"type"` key is absent or not a string; a string that is not one of the nine
recognized tags fails `GeoJsonUnknownType`; in particular
`{"type":"Circle","coordinates":[0,0]}` fails with the unknown-type error. -/
theorem C3_type_dispatch :
    (∀ o : JsonObject, objGet o "type" = none →
        from_json_object o = .error (.ExpectedProperty "type"))
    ∧ (∀ (o : JsonObject) (v : JsonValue), objGet o "type" = some v →
        v.isStr = false → from_json_object o = .error (.ExpectedProperty "type"))
    ∧ (∀ (o : JsonObject) (s : String), objGet o "type" = some (.str s) →
        TypeTag.from_str s = none → from_json_object o = .error .GeoJsonUnknownType)
    ∧ (∀ s : String, TypeTag.from_str s = none ↔
        s ∉ ["Point", "MultiPoint", "LineString", "MultiLineString", "Polygon",
          "MultiPolygon", "GeometryCollection", "Feature", "FeatureCollection"])
    ∧ from_json_object [("type", .str "Circle"),
        ("coordinates", .arr [.num 0, .num 0])] = .error .GeoJsonUnknownType := by
  refine ⟨?_, ?_, ?_, ?_, rfl⟩
  · intro o h
    simp [from_json_object, h]
  · intro o v h hv
    cases v <;> simp_all [from_json_object, JsonValue.isStr]
  · intro o s h hs
    simp [from_json_object, h, hs]
  · intro s
    unfold TypeTag.from_str
    split <;> simp_all

/-- C3 witness: type key absent, numeric type value, unrecognized tag. -/
theorem C3_type_dispatch_witness :
    from_json_object [] = .error (.ExpectedProperty "type")
    ∧ from_json_object [("type", JsonValue.num 1)] = .error (.ExpectedProperty "type")
    ∧ from_json_object [("type", JsonValue.str "Blob")] = .error .GeoJsonUnknownType
    ∧ (TypeTag.from_str "Blob" = none ↔ "Blob" ∉ ["Point", "MultiPoint",
        "LineString", "MultiLineString", "Polygon", "MultiPolygon",
        "GeometryCollection", "Feature", "FeatureCollection"]) :=
  ⟨C3_type_dispatch.1 [] rfl, C3_type_dispatch.2.1 _ _ rfl rfl,
   C3_type_dispatch.2.2.1 _ _ rfl rfl, C3_type_dispatch.2.2.2.1 "Blob"⟩

theorem oneDElems_collect (xs : List JsonValue) :
    oneDElems xs = collectFirstError (xs.map positionFromJsonValue) := by
  induction xs with
  | nil => rfl
  | cons x rest ih =>
    cases hx : positionFromJsonValue x with
    | error e => simp [oneDElems, collectFirstError, hx]
    | ok c =>
      simp only [oneDElems, hx, List.map_cons, collectFirstError, ih]
      cases collectFirstError (rest.map positionFromJsonValue) <;> simp [Except.map]

theorem twoDElems_collect (xs : List JsonValue) :
    twoDElems xs = collectFirstError (xs.map json_to_1d_positions) := by
  induction xs with
  | nil => rfl
  | cons x rest ih =>
    cases hx : json_to_1d_positions x with
    | error e => simp [twoDElems, collectFirstError, hx]
    | ok c =>
      simp only [twoDElems, hx, List.map_cons, collectFirstError, ih]
      cases collectFirstError (rest.map json_to_1d_positions) <;> simp [Except.map]

theorem threeDElems_collect (xs : List JsonValue) :
    threeDElems xs = collectFirstError (xs.map json_to_2d_positions) := by
  induction xs with
  | nil => rfl
  | cons x rest ih =>
    cases hx : json_to_2d_positions x with
    | error e => simp [threeDElems, collectFirstError, hx]
    | ok c =>
      simp only [threeDElems, hx, List.map_cons, collectFirstError, ih]
      cases collectFirstError (rest.map json_to_2d_positions) <;> simp [Except.map]

/-- C2: each depth-d coordinate decoder fails `ExpectedArrayValue` on a
non-array; on an array it applies the depth-(d-1) decoder (the Position codec
at d=1) to each element in order, returning the first error encountered
left-to-right with no partial result; and the two MultiPolygon depth
examples: correct nesting decodes to one polygon of one ring of the two
positions, wrong nesting fails with an array-expected error. -/
theorem C2_coordinate_decoders :
    (∀ j : JsonValue, json_to_1d_positions j =
      match j with
      | .arr xs => collectFirstError (xs.map positionFromJsonValue)
      | _ => .error .ExpectedArrayValue)
    ∧ (∀ j : JsonValue, json_to_2d_positions j =
      match j with
      | .arr xs => collectFirstError (xs.map json_to_1d_positions)
      | _ => .error .ExpectedArrayValue)
    ∧ (∀ j : JsonValue, json_to_3d_positions j =
      match j with
      | .arr xs => collectFirstError (xs.map json_to_2d_positions)
      | _ => .error .ExpectedArrayValue)
    ∧ decodeGeometry [("type", .str "MultiPolygon"),
        ("coordinates", .arr [.arr [.arr [.arr [.num 1, .num 2],
          .arr [.num 3, .num 4]]]])] =
        .ok (.multiPolygon none none [[[[1, 2], [3, 4]]]])
    ∧ decodeGeometry [("type", .str "MultiPolygon"),
        ("coordinates", .arr [.arr [.num 1, .num 2]])] =
        .error .ExpectedArrayValue := by
  refine ⟨?_, ?_, ?_, ?_, ?_⟩
  · intro j
    cases j <;>
      simp [json_to_1d_positions, expect_array, JsonValue.as_array, oneDElems_collect]
  · intro j
    cases j <;>
      simp [json_to_2d_positions, expect_array, JsonValue.as_array, twoDElems_collect]
  · intro j
    cases j <;>
      simp [json_to_3d_positions, expect_array, JsonValue.as_array, threeDElems_collect]
  · rw [decodeGeometry]
    rfl
  · rw [decodeGeometry]
    rfl

/-! ## No top-level errors below the top level

`MalformedJson` and `GeoJsonExpectedObject` are produced only by the two
top-level entry points, never by the object decoders; these lemmas establish
that, one decoder at a time. -/

theorem expect_string_no_top {v : JsonValue} {e : Error}
    (h : expect_string v = .error e) : e.isTopLevel = false := by
  cases v <;> simp [expect_string] at h <;> subst h <;> rfl

theorem expect_f64_no_top {v : JsonValue} {e : Error}
    (h : expect_f64 v = .error e) : e.isTopLevel = false := by
  cases v <;> simp [expect_f64, JsonValue.as_f64] at h <;> subst h <;> rfl

theorem expect_array_no_top {v : JsonValue} {e : Error}
    (h : expect_array v = .error e) : e.isTopLevel = false := by
  cases v <;> simp [expect_array, JsonValue.as_array] at h <;> subst h <;> rfl

theorem expect_owned_array_no_top {v : JsonValue} {e : Error}
    (h : expect_owned_array v = .error e) : e.isTopLevel = false := by
  cases v <;> simp [expect_owned_array] at h <;> subst h <;> rfl

theorem expect_owned_object_no_top {v : JsonValue} {e : Error}
    (h : expect_owned_object v = .error e) : e.isTopLevel = false := by
  cases v <;> simp [expect_owned_object] at h <;> subst h <;> rfl

theorem expect_property_no_top {o : JsonObject} {k : String} {e : Error}
    {rest : JsonObject} (h : expect_property o k = (.error e, rest)) :
    e.isTopLevel = false := by
  unfold expect_property objRemove at h
  rcases hg : objGet o k with _ | v <;> rw [hg] at h <;> simp at h
  obtain ⟨h1, -⟩ := h
  subst h1
  rfl

theorem expect_type_no_top {o : JsonObject} {e : Error} {rest : JsonObject}
    (h : expect_type o = (.error e, rest)) : e.isTopLevel = false := by
  unfold expect_type at h
  split at h
  · rename_i prop rest' heq
    simp at h
    obtain ⟨h1, -⟩ := h
    exact expect_string_no_top h1
  · rename_i e' rest' heq
    simp at h
    obtain ⟨h1, -⟩ := h
    subst h1
    exact expect_property_no_top heq

theorem bboxNums_no_top {xs : List JsonValue} {e : Error}
    (h : bboxNums xs = .error e) : e.isTopLevel = false := by
  induction xs with
  | nil => simp [bboxNums] at h
  | cons x rest ih =>
    unfold bboxNums at h
    split at h
    · rename_i v hv
      cases hb : bboxNums rest with
      | ok ns => rw [hb] at h; simp [Except.map] at h
      | error e' =>
        rw [hb] at h
        simp [Except.map] at h
        subst h
        exact ih hb
    · simp at h
      subst h
      rfl

theorem get_bbox_no_top {o : JsonObject} {e : Error} {rest : JsonObject}
    (h : get_bbox o = (.error e, rest)) : e.isTopLevel = false := by
  unfold get_bbox objRemove at h
  rcases hg : objGet o "bbox" with _ | v <;> rw [hg] at h
  · simp at h
  · rcases v with _ | b | n | s | xs | m
    case arr =>
      simp only [] at h
      rcases hb : bboxNums xs with e' | ns
      · rw [hb] at h
        simp at h
        obtain ⟨h1, -⟩ := h
        subst h1
        exact bboxNums_no_top hb
      · rw [hb] at h
        simp at h
    all_goals
      simp at h
      obtain ⟨h1, -⟩ := h
      subst h1
      rfl

theorem get_foreign_members_no_top {o : JsonObject} {e : Error}
    (h : get_foreign_members o = .error e) : e.isTopLevel = false := by
  unfold get_foreign_members at h
  split at h <;> simp at h

theorem get_properties_no_top {o : JsonObject} {e : Error} {rest : JsonObject}
    (h : get_properties o = (.error e, rest)) : e.isTopLevel = false := by
  unfold get_properties at h
  split at h
  · rename_i p rest' heq
    rcases p with _ | b | n | s | xs | m <;> simp at h <;>
      obtain ⟨h1, -⟩ := h <;> subst h1 <;> rfl
  · rename_i e' rest' heq
    simp at h
    obtain ⟨h1, -⟩ := h
    subst h1
    exact expect_property_no_top heq

theorem get_id_no_top {o : JsonObject} {e : Error} {rest : JsonObject}
    (h : get_id o = (.error e, rest)) : e.isTopLevel = false := by
  unfold get_id objRemove at h
  rcases hg : objGet o "id" with _ | v <;> rw [hg] at h
  · simp at h
  · rcases v with _ | b | n | s | xs | m <;> simp at h <;>
      obtain ⟨h1, -⟩ := h <;> subst h1 <;> rfl

theorem positionElems_no_top {xs : List JsonValue} {e : Error}
    (h : positionElems xs = .error e) : e.isTopLevel = false := by
  induction xs with
  | nil => simp [positionElems] at h
  | cons x rest ih =>
    unfold positionElems at h
    split at h
    · rename_i v hv
      cases hb : positionElems rest with
      | ok ns => rw [hb] at h; simp [Except.map] at h
      | error e' =>
        rw [hb] at h
        simp [Except.map] at h
        subst h
        exact ih hb
    · rename_i e' heq
      simp at h
      subst h
      exact expect_f64_no_top heq

theorem positionFromJsonValue_no_top {v : JsonValue} {e : Error}
    (h : positionFromJsonValue v = .error e) : e.isTopLevel = false := by
  unfold positionFromJsonValue at h
  split at h
  · exact positionElems_no_top h
  · rename_i e' heq
    simp at h
    subst h
    exact expect_array_no_top heq

theorem oneDElems_no_top {xs : List JsonValue} {e : Error}
    (h : oneDElems xs = .error e) : e.isTopLevel = false := by
  induction xs with
  | nil => simp [oneDElems] at h
  | cons x rest ih =>
    unfold oneDElems at h
    split at h
    · rename_i c hc
      cases hb : oneDElems rest with
      | ok cs => rw [hb] at h; simp [Except.map] at h
      | error e' =>
        rw [hb] at h
        simp [Except.map] at h
        subst h
        exact ih hb
    · rename_i e' heq
      simp at h
      subst h
      exact positionFromJsonValue_no_top heq

theorem json_to_1d_positions_no_top {v : JsonValue} {e : Error}
    (h : json_to_1d_positions v = .error e) : e.isTopLevel = false := by
  unfold json_to_1d_positions at h
  split at h
  · exact oneDElems_no_top h
  · rename_i e' heq
    simp at h
    subst h
    exact expect_array_no_top heq

theorem twoDElems_no_top {xs : List JsonValue} {e : Error}
    (h : twoDElems xs = .error e) : e.isTopLevel = false := by
  induction xs with
  | nil => simp [twoDElems] at h
  | cons x rest ih =>
    unfold twoDElems at h
    split at h
    · rename_i c hc
      cases hb : twoDElems rest with
      | ok cs => rw [hb] at h; simp [Except.map] at h
      | error e' =>
        rw [hb] at h
        simp [Except.map] at h
        subst h
        exact ih hb
    · rename_i e' heq
      simp at h
      subst h
      exact json_to_1d_positions_no_top heq

theorem json_to_2d_positions_no_top {v : JsonValue} {e : Error}
    (h : json_to_2d_positions v = .error e) : e.isTopLevel = false := by
  unfold json_to_2d_positions at h
  split at h
  · exact twoDElems_no_top h
  · rename_i e' heq
    simp at h
    subst h
    exact expect_array_no_top heq

theorem threeDElems_no_top {xs : List JsonValue} {e : Error}
    (h : threeDElems xs = .error e) : e.isTopLevel = false := by
  induction xs with
  | nil => simp [threeDElems] at h
  | cons x rest ih =>
    unfold threeDElems at h
    split at h
    · rename_i c hc
      cases hb : threeDElems rest with
      | ok cs => rw [hb] at h; simp [Except.map] at h
      | error e' =>
        rw [hb] at h
        simp [Except.map] at h
        subst h
        exact ih hb
    · rename_i e' heq
      simp at h
      subst h
      exact json_to_2d_positions_no_top heq

theorem json_to_3d_positions_no_top {v : JsonValue} {e : Error}
    (h : json_to_3d_positions v = .error e) : e.isTopLevel = false := by
  unfold json_to_3d_positions at h
  split at h
  · exact threeDElems_no_top h
  · rename_i e' heq
    simp at h
    subst h
    exact expect_array_no_top heq

theorem get_coords_one_pos_no_top {o : JsonObject} {e : Error} {rest : JsonObject}
    (h : get_coords_one_pos o = (.error e, rest)) : e.isTopLevel = false := by
  unfold get_coords_one_pos get_coords_value at h
  split at h
  · rename_i cj rest' heq
    simp at h
    obtain ⟨h1, -⟩ := h
    exact positionFromJsonValue_no_top h1
  · rename_i e' rest' heq
    simp at h
    obtain ⟨h1, -⟩ := h
    subst h1
    exact expect_property_no_top heq

theorem get_coords_1d_pos_no_top {o : JsonObject} {e : Error} {rest : JsonObject}
    (h : get_coords_1d_pos o = (.error e, rest)) : e.isTopLevel = false := by
  unfold get_coords_1d_pos get_coords_value at h
  split at h
  · rename_i cj rest' heq
    simp at h
    obtain ⟨h1, -⟩ := h
    exact json_to_1d_positions_no_top h1
  · rename_i e' rest' heq
    simp at h
    obtain ⟨h1, -⟩ := h
    subst h1
    exact expect_property_no_top heq

theorem get_coords_2d_pos_no_top {o : JsonObject} {e : Error} {rest : JsonObject}
    (h : get_coords_2d_pos o = (.error e, rest)) : e.isTopLevel = false := by
  unfold get_coords_2d_pos get_coords_value at h
  split at h
  · rename_i cj rest' heq
    simp at h
    obtain ⟨h1, -⟩ := h
    exact json_to_2d_positions_no_top h1
  · rename_i e' rest' heq
    simp at h
    obtain ⟨h1, -⟩ := h
    subst h1
    exact expect_property_no_top heq

theorem get_coords_3d_pos_no_top {o : JsonObject} {e : Error} {rest : JsonObject}
    (h : get_coords_3d_pos o = (.error e, rest)) : e.isTopLevel = false := by
  unfold get_coords_3d_pos get_coords_value at h
  split at h
  · rename_i cj rest' heq
    simp at h
    obtain ⟨h1, -⟩ := h
    exact json_to_3d_positions_no_top h1
  · rename_i e' rest' heq
    simp at h
    obtain ⟨h1, -⟩ := h
    subst h1
    exact expect_property_no_top heq

theorem decodeCoordValue_no_top {t : String} {o : JsonObject} {e : Error}
    (h : decodeCoordValue t o = .error e) : e.isTopLevel = false := by
  unfold decodeCoordValue at h
  split at h
  · split at h
    · simp at h
    · rename_i heq
      simp at h
      subst h
      exact get_coords_one_pos_no_top heq
  split at h
  · split at h
    · simp at h
    · rename_i heq
      simp at h
      subst h
      exact get_coords_1d_pos_no_top heq
  split at h
  · split at h
    · simp at h
    · rename_i heq
      simp at h
      subst h
      exact get_coords_1d_pos_no_top heq
  split at h
  · split at h
    · simp at h
    · rename_i heq
      simp at h
      subst h
      exact get_coords_2d_pos_no_top heq
  split at h
  · split at h
    · simp at h
    · rename_i heq
      simp at h
      subst h
      exact get_coords_2d_pos_no_top heq
  split at h
  · split at h
    · simp at h
    · rename_i heq
      simp at h
      subst h
      exact get_coords_3d_pos_no_top heq
  · simp at h
    subst h
    rfl

theorem finishGeometry_no_top {mk : Option Bbox → Option JsonObject → Geometry}
    {o : JsonObject} {e : Error} (h : finishGeometry mk o = .error e) :
    e.isTopLevel = false := by
  unfold finishGeometry at h
  split at h
  · rename_i e' rest heq
    simp at h
    subst h
    exact get_bbox_no_top heq
  · rename_i bbox rest heq
    split at h
    · simp at h
    · rename_i e' heq2
      simp at h
      subst h
      exact get_foreign_members_no_top heq2

theorem geometry_cluster_no_top (n : Nat) :
    (∀ object : JsonObject, sizeOf object < n → ∀ e : Error,
      decodeGeometry object = .error e → e.isTopLevel = false)
    ∧ (∀ object : JsonObject, sizeOf object < n → ∀ (e : Error) (rest : JsonObject),
      get_geometries object = (.error e, rest) → e.isTopLevel = false)
    ∧ (∀ l : List JsonValue, sizeOf l < n → ∀ e : Error,
      decodeGeometryList l = .error e → e.isTopLevel = false) := by
  induction n using Nat.strong_induction_on with
  | _ n ih =>
    refine ⟨?_, ?_, ?_⟩
    · intro object hn e h
      rw [decodeGeometry] at h
      split at h
      · rename_i e' o' heq
        simp at h
        subst h
        exact expect_type_no_top heq
      · rename_i t o1 heq
        have ho1 : sizeOf o1 < sizeOf object := expect_type_ok_sizeOf heq
        split at h
        · split at h
          · rename_i e' o' heq2
            simp at h
            subst h
            exact (ih (sizeOf object) hn).2.1 o1 ho1 e' o' heq2
          · exact finishGeometry_no_top h
        · split at h
          · rename_i e' heq2
            simp at h
            subst h
            exact decodeCoordValue_no_top heq2
          · exact finishGeometry_no_top h
    · intro object hn e rest h
      rw [get_geometries] at h
      split at h
      · rename_i e' rest' heq
        simp at h
        obtain ⟨h1, -⟩ := h
        subst h1
        exact expect_property_no_top heq
      · rename_i gj rest' heq
        have hgj : sizeOf gj < sizeOf object := (expect_property_ok_sizeOf heq).1
        split at h
        · rename_i xs heq2
          simp at h
          obtain ⟨h1, -⟩ := h
          have hxs : sizeOf xs < sizeOf object := by
            simp at hgj
            omega
          exact (ih (sizeOf object) hn).2.2 xs hxs e h1
        · simp at h
          obtain ⟨h1, -⟩ := h
          subst h1
          rfl
    · intro l hn e h
      rcases l with _ | ⟨x, rest⟩
      · rw [decodeGeometryList] at h
        simp at h
      · rcases x with _ | b | nv | s | xs | o
        case obj =>
          rw [decodeGeometryList] at h
          have hrest : sizeOf rest < sizeOf (JsonValue.obj o :: rest) := by
            simp only [List.cons.sizeOf_spec, JsonValue.obj.sizeOf_spec]
            omega
          have ho : sizeOf o < sizeOf (JsonValue.obj o :: rest) := by
            simp only [List.cons.sizeOf_spec, JsonValue.obj.sizeOf_spec]
            omega
          split at h
          · rename_i g heq
            cases hb : decodeGeometryList rest with
            | ok gs => rw [hb] at h; simp [Except.map] at h
            | error e' =>
              rw [hb] at h
              simp [Except.map] at h
              subst h
              exact (ih (sizeOf (JsonValue.obj o :: rest)) hn).2.2 rest hrest e' hb
          · rename_i e' heq
            simp at h
            subst h
            exact (ih (sizeOf (JsonValue.obj o :: rest)) hn).1 o ho e' heq
        all_goals
          simp only [decodeGeometryList, Except.error.injEq] at h
          subst h
          rfl

theorem decodeGeometry_no_top {object : JsonObject} {e : Error}
    (h : decodeGeometry object = .error e) : e.isTopLevel = false :=
  (geometry_cluster_no_top (sizeOf object + 1)).1 object (by omega) e h

theorem get_geometry_no_top {o : JsonObject} {e : Error} {rest : JsonObject}
    (h : get_geometry o = (.error e, rest)) : e.isTopLevel = false := by
  unfold get_geometry at h
  split at h
  · rename_i g rest' heq
    rcases g with _ | b | n | s | xs | m
    case obj =>
      simp only [] at h
      rcases hd : decodeGeometry m with e' | go <;> rw [hd] at h <;> simp at h
      obtain ⟨h1, -⟩ := h
      subst h1
      exact decodeGeometry_no_top hd
    all_goals
      simp at h
      try (obtain ⟨h1, -⟩ := h; subst h1; rfl)
  · rename_i e' rest' heq
    simp at h
    obtain ⟨h1, -⟩ := h
    subst h1
    exact expect_property_no_top heq

theorem decodeFeature_no_top {o : JsonObject} {e : Error}
    (h : decodeFeature o = .error e) : e.isTopLevel = false := by
  unfold decodeFeature at h
  split at h
  · rename_i e' o' heq
    simp at h
    subst h
    exact expect_type_no_top heq
  · rename_i t o1 heq
    split at h
    · split at h
      · rename_i e' o' heq2
        simp at h
        subst h
        exact get_geometry_no_top heq2
      · rename_i g o2 heq2
        split at h
        · rename_i e' o' heq3
          simp at h
          subst h
          exact get_properties_no_top heq3
        · rename_i p o3 heq3
          split at h
          · rename_i e' o' heq4
            simp at h
            subst h
            exact get_id_no_top heq4
          · rename_i i o4 heq4
            split at h
            · rename_i e' o' heq5
              simp at h
              subst h
              exact get_bbox_no_top heq5
            · rename_i bb o5 heq5
              split at h
              · simp at h
              · rename_i e' heq6
                simp at h
                subst h
                exact get_foreign_members_no_top heq6
    · simp at h
      subst h
      rfl

theorem decodeFeatureList_no_top {l : List JsonValue} {e : Error}
    (h : decodeFeatureList l = .error e) : e.isTopLevel = false := by
  induction l with
  | nil => simp [decodeFeatureList] at h
  | cons x rest ih =>
    rcases x with _ | b | n | s | xs | o
    case obj =>
      rw [decodeFeatureList] at h
      split at h
      · rename_i f heq
        cases hb : decodeFeatureList rest with
        | ok fs => rw [hb] at h; simp [Except.map] at h
        | error e' =>
          rw [hb] at h
          simp [Except.map] at h
          subst h
          exact ih hb
      · rename_i e' heq
        simp at h
        subst h
        exact decodeFeature_no_top heq
    all_goals
      simp only [decodeFeatureList, Except.error.injEq] at h
      subst h
      rfl

theorem get_features_no_top {o : JsonObject} {e : Error} {rest : JsonObject}
    (h : get_features o = (.error e, rest)) : e.isTopLevel = false := by
  unfold get_features at h
  split at h
  · rename_i p rest' heq
    rcases p with _ | b | n | s | xs | m
    case arr =>
      simp at h
      obtain ⟨h1, -⟩ := h
      exact decodeFeatureList_no_top h1
    all_goals
      simp at h
      obtain ⟨h1, -⟩ := h
      subst h1
      rfl
  · rename_i e' rest' heq
    simp at h
    obtain ⟨h1, -⟩ := h
    subst h1
    exact expect_property_no_top heq

theorem decodeFeatureCollection_no_top {o : JsonObject} {e : Error}
    (h : decodeFeatureCollection o = .error e) : e.isTopLevel = false := by
  unfold decodeFeatureCollection at h
  split at h
  · rename_i e' o' heq
    simp at h
    subst h
    exact expect_type_no_top heq
  · rename_i t o1 heq
    split at h
    · split at h
      · rename_i e' o' heq2
        simp at h
        subst h
        exact get_features_no_top heq2
      · rename_i fs o2 heq2
        split at h
        · rename_i e' o' heq3
          simp at h
          subst h
          exact get_bbox_no_top heq3
        · rename_i bb o3 heq3
          split at h
          · simp at h
          · rename_i e' heq4
            simp at h
            subst h
            exact get_foreign_members_no_top heq4
    · simp at h
      subst h
      rfl

theorem from_json_object_no_top {o : JsonObject} {e : Error}
    (h : from_json_object o = .error e) : e.isTopLevel = false := by
  unfold from_json_object at h
  split at h
  · rename_i t heq
    split at h
    · simp at h
      subst h
      rfl
    · rename_i ty heq2
      split at h
      · cases hd : decodeFeature o with
        | ok f => rw [hd] at h; simp [Except.map] at h
        | error e' =>
          rw [hd] at h
          simp [Except.map] at h
          subst h
          exact decodeFeature_no_top hd
      · cases hd : decodeFeatureCollection o with
        | ok fc => rw [hd] at h; simp [Except.map] at h
        | error e' =>
          rw [hd] at h
          simp [Except.map] at h
          subst h
          exact decodeFeatureCollection_no_top hd
      · cases hd : decodeGeometry o with
        | ok g => rw [hd] at h; simp [Except.map] at h
        | error e' =>
          rw [hd] at h
          simp [Except.map] at h
          subst h
          exact decodeGeometry_no_top hd
  · simp at h
    subst h
    rfl

/-- C5 counterexample: feeding the string-input entry point an input that
parses to a JSON array (a value that is not an object), `FromStr` returns
`MalformedJson`, not `GeoJsonExpectedObject` — so `GeoJsonExpectedObject` is
not "returned exactly when the input parsed to a non-object value" for the
`FromStr` entry point. -/
theorem C5_counterexample :
    from_str (some (.arr [])) = .error .MalformedJson
    ∧ Error.MalformedJson ≠ Error.GeoJsonExpectedObject :=
  ⟨rfl, by decide⟩

/-- C5 (amended): for the value-input entry point `TryFrom<JsonValue>`,
`GeoJsonExpectedObject` is returned exactly when the value is not an object,
and `MalformedJson` is never returned; for the string-input entry point
`FromStr`, `MalformedJson` is returned exactly when the text failed to parse
or parsed to a non-object value, and `GeoJsonExpectedObject` is never
returned. -/
theorem C5_toplevel_errors :
    (∀ v : JsonValue, from_json_value v = .error .GeoJsonExpectedObject ↔
      ∀ o : JsonObject, v ≠ .obj o)
    ∧ (∀ v : JsonValue, from_json_value v ≠ .error .MalformedJson)
    ∧ (∀ p : Option JsonValue, from_str p = .error .MalformedJson ↔
      p.bind json_value_into_json_object = none)
    ∧ (∀ p : Option JsonValue, from_str p ≠ .error .GeoJsonExpectedObject) := by
  refine ⟨?_, ?_, ?_, ?_⟩
  · intro v
    constructor
    · intro h
      rcases v with _ | b | n | s | xs | o
      case obj =>
        simp only [from_json_value] at h
        have := from_json_object_no_top h
        simp [Error.isTopLevel] at this
      all_goals intro o' hv; simp at hv
    · intro hno
      rcases v with _ | b | n | s | xs | o
      case obj => exact absurd rfl (hno o)
      all_goals rfl
  · intro v h
    rcases v with _ | b | n | s | xs | o
    case obj =>
      simp only [from_json_value] at h
      have := from_json_object_no_top h
      simp [Error.isTopLevel] at this
    all_goals simp [from_json_value] at h
  · intro p
    rcases p with _ | v
    · simp [from_str, get_object, Option.bind]
    · rcases v with _ | b | n | s | xs | o
      case obj =>
        constructor
        · intro h
          simp only [from_str, get_object, Option.bind,
            json_value_into_json_object] at h
          have := from_json_object_no_top h
          simp [Error.isTopLevel] at this
        · intro h
          simp [Option.bind, json_value_into_json_object] at h
      all_goals simp [from_str, get_object, Option.bind, json_value_into_json_object]
  · intro p h
    rcases p with _ | v
    · simp [from_str, get_object, Option.bind] at h
    · rcases v with _ | b | n | s | xs | o
      case obj =>
        simp only [from_str, get_object, Option.bind,
          json_value_into_json_object] at h
        have := from_json_object_no_top h
        simp [Error.isTopLevel] at this
      all_goals simp [from_str, get_object, Option.bind,
        json_value_into_json_object] at h

/-- C5 (amended) witness: instantiated at the parsed array `[]`. -/
theorem C5_toplevel_errors_witness :
    (from_json_value (.arr []) = .error .GeoJsonExpectedObject ↔
      ∀ o : JsonObject, JsonValue.arr [] ≠ .obj o)
    ∧ from_json_value (.arr []) ≠ .error .MalformedJson
    ∧ (from_str (some (.arr [])) = .error .MalformedJson ↔
      (some (JsonValue.arr [])).bind json_value_into_json_object = none)
    ∧ from_str (some (.arr [])) ≠ .error .GeoJsonExpectedObject :=
  ⟨C5_toplevel_errors.1 (.arr []), C5_toplevel_errors.2.1 (.arr []),
   C5_toplevel_errors.2.2.1 (some (.arr [])),
   C5_toplevel_errors.2.2.2 (some (.arr []))⟩

/-! ## Round-trip lemmas -/

theorem positionElems_encode (p : PositionVec) :
    positionElems (p.map JsonValue.num) = .ok p := by
  induction p with
  | nil => rfl
  | cons x rest ih =>
    simp [positionElems, expect_f64, JsonValue.as_f64, ih, Except.map]

theorem positionFromJsonValue_encode (p : PositionVec) :
    positionFromJsonValue (encodePosition p) = .ok p := by
  simp [positionFromJsonValue, encodePosition, expect_array, JsonValue.as_array,
    positionElems_encode]

theorem oneDElems_encode (ps : List PositionVec) :
    oneDElems (ps.map encodePosition) = .ok ps := by
  induction ps with
  | nil => rfl
  | cons p rest ih =>
    simp [oneDElems, positionFromJsonValue_encode, ih, Except.map]

theorem json_to_1d_positions_encode (ps : List PositionVec) :
    json_to_1d_positions (encode1d ps) = .ok ps := by
  simp [json_to_1d_positions, encode1d, expect_array, JsonValue.as_array,
    oneDElems_encode]

theorem twoDElems_encode (ls : List (List PositionVec)) :
    twoDElems (ls.map encode1d) = .ok ls := by
  induction ls with
  | nil => rfl
  | cons l rest ih =>
    simp [twoDElems, json_to_1d_positions_encode, ih, Except.map]

theorem json_to_2d_positions_encode (ls : List (List PositionVec)) :
    json_to_2d_positions (encode2d ls) = .ok ls := by
  simp [json_to_2d_positions, encode2d, expect_array, JsonValue.as_array,
    twoDElems_encode]

theorem threeDElems_encode (pp : List (List (List PositionVec))) :
    threeDElems (pp.map encode2d) = .ok pp := by
  induction pp with
  | nil => rfl
  | cons l rest ih =>
    simp [threeDElems, json_to_2d_positions_encode, ih, Except.map]

theorem json_to_3d_positions_encode (pp : List (List (List PositionVec))) :
    json_to_3d_positions (encode3d pp) = .ok pp := by
  simp [json_to_3d_positions, encode3d, expect_array, JsonValue.as_array,
    threeDElems_encode]

theorem bboxNums_encode (b : Bbox) : bboxNums (b.map JsonValue.num) = .ok b := by
  induction b with
  | nil => rfl
  | cons x rest ih =>
    simp [bboxNums, JsonValue.as_f64, ih, Except.map]

theorem geometryListNoFM_mem {gs : List Geometry} {g : Geometry}
    (h : geometryListNoFM gs = true) (hmem : g ∈ gs) : Geometry.noFM g = true := by
  induction gs with
  | nil => simp at hmem
  | cons g' rest ih =>
    rw [geometryListNoFM, Bool.and_eq_true] at h
    rcases List.mem_cons.mp hmem with h1 | h1
    · subst h1
      exact h.1
    · exact ih h.2 h1

theorem decodeGeometryList_encode (gs : List Geometry)
    (ih : ∀ g ∈ gs, decodeGeometry (encodeGeometry g) = .ok g) :
    decodeGeometryList (encodeGeometryList gs) = .ok gs := by
  induction gs with
  | nil =>
    rw [encodeGeometryList, decodeGeometryList]
  | cons g rest ihr =>
    rw [encodeGeometryList, decodeGeometryList, ih g (by simp),
      ihr (fun g' h' => ih g' (by simp [h']))]
    rfl

theorem decodeGeometry_encode : ∀ (g : Geometry), Geometry.noFM g = true →
    decodeGeometry (encodeGeometry g) = .ok g
  | .point b f p, hg => by
    rcases f with _ | m
    · rcases b with _ | bb <;>
      · rw [decodeGeometry]
        simp [encodeGeometry, encBbox, encFM, expect_type, expect_property,
          objRemove, objGet, objErase, expect_string, decodeCoordValue,
          get_coords_one_pos, get_coords_value, finishGeometry, get_bbox,
          get_foreign_members, positionFromJsonValue_encode, bboxNums_encode]
    · simp [Geometry.noFM] at hg
  | .multiPoint b f ps, hg => by
    rcases f with _ | m
    · rcases b with _ | bb <;>
      · rw [decodeGeometry]
        simp [encodeGeometry, encBbox, encFM, expect_type, expect_property,
          objRemove, objGet, objErase, expect_string, decodeCoordValue,
          get_coords_1d_pos, get_coords_value, finishGeometry, get_bbox,
          get_foreign_members, json_to_1d_positions_encode, bboxNums_encode]
    · simp [Geometry.noFM] at hg
  | .lineString b f ps, hg => by
    rcases f with _ | m
    · rcases b with _ | bb <;>
      · rw [decodeGeometry]
        simp [encodeGeometry, encBbox, encFM, expect_type, expect_property,
          objRemove, objGet, objErase, expect_string, decodeCoordValue,
          get_coords_1d_pos, get_coords_value, finishGeometry, get_bbox,
          get_foreign_members, json_to_1d_positions_encode, bboxNums_encode]
    · simp [Geometry.noFM] at hg
  | .multiLineString b f ls, hg => by
    rcases f with _ | m
    · rcases b with _ | bb <;>
      · rw [decodeGeometry]
        simp [encodeGeometry, encBbox, encFM, expect_type, expect_property,
          objRemove, objGet, objErase, expect_string, decodeCoordValue,
          get_coords_2d_pos, get_coords_value, finishGeometry, get_bbox,
          get_foreign_members, json_to_2d_positions_encode, bboxNums_encode]
    · simp [Geometry.noFM] at hg
  | .polygon b f ls, hg => by
    rcases f with _ | m
    · rcases b with _ | bb <;>
      · rw [decodeGeometry]
        simp [encodeGeometry, encBbox, encFM, expect_type, expect_property,
          objRemove, objGet, objErase, expect_string, decodeCoordValue,
          get_coords_2d_pos, get_coords_value, finishGeometry, get_bbox,
          get_foreign_members, json_to_2d_positions_encode, bboxNums_encode]
    · simp [Geometry.noFM] at hg
  | .multiPolygon b f pp, hg => by
    rcases f with _ | m
    · rcases b with _ | bb <;>
      · rw [decodeGeometry]
        simp [encodeGeometry, encBbox, encFM, expect_type, expect_property,
          objRemove, objGet, objErase, expect_string, decodeCoordValue,
          get_coords_3d_pos, get_coords_value, finishGeometry, get_bbox,
          get_foreign_members, json_to_3d_positions_encode, bboxNums_encode]
    · simp [Geometry.noFM] at hg
  | .geometryCollection b f gs, hg => by
    rcases f with _ | m
    · rw [Geometry.noFM] at hg
      simp only [Option.isNone_none, Bool.true_and] at hg
      have ih : ∀ g' ∈ gs, decodeGeometry (encodeGeometry g') = .ok g' :=
        fun g' h' => decodeGeometry_encode g' (geometryListNoFM_mem hg h')
      have hlist := decodeGeometryList_encode gs ih
      rcases b with _ | bb <;>
      · rw [decodeGeometry]
        simp [encodeGeometry, encBbox, encFM, expect_type, expect_property,
          objRemove, objGet, objErase, expect_string, get_geometries, hlist,
          finishGeometry, get_bbox, get_foreign_members, bboxNums_encode]
    · simp [Geometry.noFM] at hg
termination_by g => sizeOf g
decreasing_by
  have := List.sizeOf_lt_of_mem h'
  simp
  omega

theorem decodeFeature_encode (f : Feature) (hf : f.noFM = true) :
    decodeFeature (encodeFeature f) = .ok f := by
  obtain ⟨b, g, i, pr, fm⟩ := f
  rcases fm with _ | m
  · simp only [Feature.noFM, Option.isNone_none, Bool.true_and] at hf
    rcases g with _ | gg
    · rcases b with _ | bb <;> rcases i with _ | (n | s) <;> rcases pr with _ | m2 <;>
        simp [decodeFeature, encodeFeature, encBbox, encFM, encId, expect_type,
          expect_property, objRemove, objGet, objErase, expect_string, get_geometry,
          get_properties, get_id, get_bbox, get_foreign_members, bboxNums_encode]
    · have hdec := decodeGeometry_encode gg hf
      rcases b with _ | bb <;> rcases i with _ | (n | s) <;> rcases pr with _ | m2 <;>
        simp [decodeFeature, encodeFeature, encBbox, encFM, encId, expect_type,
          expect_property, objRemove, objGet, objErase, expect_string, get_geometry,
          hdec, get_properties, get_id, get_bbox, get_foreign_members, bboxNums_encode]
  · simp [Feature.noFM] at hf

theorem featureListNoFM_mem {fs : List Feature} {f : Feature}
    (h : featureListNoFM fs = true) (hmem : f ∈ fs) : f.noFM = true := by
  induction fs with
  | nil => simp at hmem
  | cons f' rest ih =>
    rw [featureListNoFM, Bool.and_eq_true] at h
    rcases List.mem_cons.mp hmem with h1 | h1
    · subst h1
      exact h.1
    · exact ih h.2 h1

theorem decodeFeatureList_encode (fs : List Feature)
    (hfs : featureListNoFM fs = true) :
    decodeFeatureList (encodeFeatureList fs) = .ok fs := by
  induction fs with
  | nil => rfl
  | cons f rest ih =>
    rw [featureListNoFM, Bool.and_eq_true] at hfs
    rw [encodeFeatureList, decodeFeatureList, decodeFeature_encode f hfs.1,
      ih hfs.2]
    rfl

theorem decodeFeatureCollection_encode (fc : FeatureCollection)
    (hfc : fc.noFM = true) :
    decodeFeatureCollection (encodeFeatureCollection fc) = .ok fc := by
  obtain ⟨b, fs, fm⟩ := fc
  rcases fm with _ | m
  · simp only [FeatureCollection.noFM, Option.isNone_none, Bool.true_and] at hfc
    have hlist := decodeFeatureList_encode fs hfc
    rcases b with _ | bb <;>
      simp [decodeFeatureCollection, encodeFeatureCollection, encBbox, encFM,
        expect_type, expect_property, objRemove, objGet, objErase, expect_string,
        get_features, hlist, get_bbox, get_foreign_members, bboxNums_encode]
  · simp [FeatureCollection.noFM] at hfc

theorem from_json_object_geometry (g : Geometry) :
    from_json_object (encodeGeometry g) =
      (decodeGeometry (encodeGeometry g)).map GeoJson.geometry := by
  rcases g with ⟨b, f, p⟩ | ⟨b, f, ps⟩ | ⟨b, f, ps⟩ | ⟨b, f, ls⟩ | ⟨b, f, ls⟩ |
    ⟨b, f, pp⟩ | ⟨b, f, gs⟩ <;>
    rcases f with _ | m <;>
    rcases b with _ | bb <;>
    simp [from_json_object, encodeGeometry, encBbox, encFM, objGet,
      TypeTag.from_str]

theorem from_json_object_feature (f : Feature) :
    from_json_object (encodeFeature f) =
      (decodeFeature (encodeFeature f)).map GeoJson.feature := by
  obtain ⟨b, g, i, pr, fm⟩ := f
  rcases fm with _ | m <;>
    rcases b with _ | bb <;>
    simp [from_json_object, encodeFeature, encBbox, encFM, objGet,
      TypeTag.from_str]

theorem from_json_object_feature_collection (fc : FeatureCollection) :
    from_json_object (encodeFeatureCollection fc) =
      (decodeFeatureCollection (encodeFeatureCollection fc)).map
        GeoJson.featureCollection := by
  obtain ⟨b, fs, fm⟩ := fc
  rcases fm with _ | m <;>
    rcases b with _ | bb <;>
    simp [from_json_object, encodeFeatureCollection, encBbox, encFM, objGet,
      TypeTag.from_str]

/-- C1: for every constructible GeoJson value (Geometry, Feature, or
FeatureCollection) with no foreign members, decoding the JSON object produced
by encoding it yields exactly the original value:
`from_json_object(JsonObject::from(&v)) == Ok(v)`. -/
theorem C1_round_trip (v : GeoJson) (h : GeoJson.noFM v = true) :
    from_json_object (encodeGeoJson v) = .ok v := by
  rcases v with g | f | fc
  · simp only [GeoJson.noFM] at h
    rw [encodeGeoJson, from_json_object_geometry g, decodeGeometry_encode g h]
    rfl
  · simp only [GeoJson.noFM] at h
    rw [encodeGeoJson, from_json_object_feature f, decodeFeature_encode f h]
    rfl
  · simp only [GeoJson.noFM] at h
    rw [encodeGeoJson, from_json_object_feature_collection fc,
      decodeFeatureCollection_encode fc h]
    rfl

/-- C1 witness: a feature collection holding one feature whose geometry is a
geometry collection holding a point, with a bbox and ids along the way. -/
theorem C1_round_trip_witness :
    GeoJson.noFM (.featureCollection ⟨some [0, 0, 2, 2],
      [⟨none, some (.geometryCollection none none [.point none none [1, 2]]),
        some (.number 7), none, none⟩], none⟩) = true
    ∧ from_json_object (encodeGeoJson (.featureCollection ⟨some [0, 0, 2, 2],
        [⟨none, some (.geometryCollection none none [.point none none [1, 2]]),
          some (.number 7), none, none⟩], none⟩)) =
      .ok (.featureCollection ⟨some [0, 0, 2, 2],
        [⟨none, some (.geometryCollection none none [.point none none [1, 2]]),
          some (.number 7), none, none⟩], none⟩) :=
  ⟨rfl, C1_round_trip _ rfl⟩
